import Mathlib

/-!
Shallow embedding of the position-lifecycle core of the Telegrambot repository.

Sources embedded here:
* `backtest/backtest_engine.py` — `SignalBacktester.check_entry_hit` and
  `SignalBacktester.simulate_trade` (the exit-ladder replay loop);
* `backtest/config_backtest.py` — the numeric constants the engine reads;
* `backtest/simple_backtest.py` — the sequential capital-ledger loop of `main`;
* `automatedtrading.py` — the take-profit back-fill in
  `AutomatedTradingSystem.place_order_from_signal`;
* `tradingbotTest.py` — the per-poll decision logic of
  `BinanceFuturesTrader.monitor_and_manage_orders` and `_remove_monitor`.

Prices and pnl are rationals; bar timestamps are integers counted in minutes
(`timedelta(hours=h)` becomes `h * 60`).
-/

namespace Telegrambot

/-- One 1-minute OHLCV bar (a row of the price DataFrame).  Timestamps are
minutes since an arbitrary epoch. -/
structure Bar where
  timestamp : ℤ
  high : ℚ
  low : ℚ
  close : ℚ
  deriving DecidableEq, Repr

/-- Trade direction, `side.lower() == 'long'` versus `'short'` in the source. -/
inductive Side where
  | long : Side
  | short : Side
  deriving DecidableEq, Repr

/-- Terminal result values of a simulated trade. -/
inductive TradeResult where
  | no_entry : TradeResult
  | win : TradeResult
  | loss : TradeResult
  | expired : TradeResult
  deriving DecidableEq, Repr

/-- The result dict returned by `simulate_trade`: keys `result`, `pnl`,
`pnl_percent`, `exit_time`, `exit_price`, `bars_in_trade`.  The `no_entry`
dict carries no `exit_price` key, hence the `Option`. -/
structure TradeOutcome where
  result : TradeResult
  pnl : ℚ
  pnl_percent : ℚ
  exit_time : Option ℤ
  exit_price : Option ℚ
  bars_in_trade : ℕ
  deriving DecidableEq, Repr

/-- One row of the `tp_targets` ladder built inside `simulate_trade`:
`{'price': …, 'close_pct': …, 'new_sl': …}`. -/
structure TpTarget where
  price : ℚ
  close_pct : ℚ
  new_sl : Option ℚ
  deriving DecidableEq, Repr

/-- `POSITION_SIZE_USDT` from `config_backtest.py`. -/
def POSITION_SIZE_USDT : ℚ := 50

/-- `LEVERAGE` from `config_backtest.py`. -/
def LEVERAGE : ℚ := 20

/-- Directional pnl of closing the fraction `frac` at `exit_price`:
`pnl_percent = ((exit-entry)/entry)*100*frac` (sign flipped for shorts),
then `pnl = pnl_percent * POSITION_SIZE_USDT * LEVERAGE / 100`. -/
def pnlOf (side : Side) (entry_price exit_price frac : ℚ) : ℚ :=
  let pnl_percent :=
    match side with
    | Side.long => (exit_price - entry_price) / entry_price * 100 * frac
    | Side.short => (entry_price - exit_price) / entry_price * 100 * frac
  pnl_percent * POSITION_SIZE_USDT * LEVERAGE / 100

/-- The `tp_targets` list set up by `simulate_trade`: a four-tier ladder when
`tp_levels` is a list of exactly 4 prices, otherwise a single tier closing
100% at `tp_price` with no stop relocation. -/
def mkTpTargets (entry_price tp_price : ℚ) (tp_levels : Option (List ℚ)) :
    List TpTarget :=
  match tp_levels with
  | some (t1 :: t2 :: t3 :: t4 :: []) =>
      [⟨t1, 1 / 2, some entry_price⟩,
       ⟨t2, 1 / 2, some t1⟩,
       ⟨t3, 1 / 2, some t2⟩,
       ⟨t4, 1, some t3⟩]
  | _ => [⟨tp_price, 1, none⟩]

/-- Stop-loss trigger test: long → `low ≤ current_sl`, short → `high ≥ current_sl`. -/
def slHit (side : Side) (current_sl : ℚ) (row : Bar) : Bool :=
  match side with
  | Side.long => decide (row.low ≤ current_sl)
  | Side.short => decide (row.high ≥ current_sl)

/-- Take-profit trigger test: long → `high ≥ price`, short → `low ≤ price`. -/
def tpHit (side : Side) (price : ℚ) (row : Bar) : Bool :=
  match side with
  | Side.long => decide (row.high ≥ price)
  | Side.short => decide (row.low ≤ price)

/-- Result of processing one bar of the `simulate_trade` loop: either the
loop returns a terminal outcome, or it continues with updated
`(remaining_position, total_pnl, current_sl, current_tp_index)`. -/
inductive StepRes where
  | closed (out : TradeOutcome) : StepRes
  | cont (remaining total_pnl current_sl : ℚ) (tp_index : ℕ) : StepRes
  deriving DecidableEq, Repr

/-- The body of the `for idx, row in after_entry.iloc[1:]` loop of
`simulate_trade`, for one bar `row`.  `k` is the running value of
`len(after_entry.loc[entry_idx:idx])` (the bar's position in `after_entry`
plus one).  Checks run in the source's order: time limit, then stop loss,
then the single take-profit tier at `tp_index`. -/
def stepEvent (side : Side) (entry_price : ℚ) (time_limit : ℤ)
    (tp_targets : List TpTarget) (row : Bar)
    (remaining total_pnl current_sl : ℚ) (tp_index k : ℕ) : StepRes :=
  if time_limit < row.timestamp then
    let exit_price := row.close
    let tot := total_pnl + pnlOf side entry_price exit_price remaining
    StepRes.closed ⟨TradeResult.expired, tot, tot / POSITION_SIZE_USDT * 100,
      some row.timestamp, some exit_price, k⟩
  else if slHit side current_sl row then
    let pnl :=
      if |current_sl - entry_price| < 1 / 10000 then 0
      else pnlOf side entry_price current_sl remaining
    let tot := total_pnl + pnl
    StepRes.closed ⟨if tot < 0 then TradeResult.loss else TradeResult.win,
      tot, tot / POSITION_SIZE_USDT * 100,
      some row.timestamp, some current_sl, k⟩
  else
    match tp_targets.get? tp_index with
    | none => StepRes.cont remaining total_pnl current_sl tp_index
    | some tgt =>
      if remaining > 0 then
        if tpHit side tgt.price row then
          let close_amount := remaining * tgt.close_pct
          let tot := total_pnl + pnlOf side entry_price tgt.price close_amount
          let remaining2 := remaining - close_amount
          let sl2 :=
            match tgt.new_sl with
            | some s => s
            | none => current_sl
          if remaining2 < 1 / 100 then
            StepRes.closed ⟨TradeResult.win, tot, tot / POSITION_SIZE_USDT * 100,
              some row.timestamp, some tgt.price, k⟩
          else
            StepRes.cont remaining2 tot sl2 (tp_index + 1)
        else
          StepRes.cont remaining total_pnl current_sl tp_index
      else
        StepRes.cont remaining total_pnl current_sl tp_index

/-- The bar loop of `simulate_trade`.  `Sum.inl` is an in-loop `return`
(time-limit, stop-loss or final take-profit close); `Sum.inr` is falling off
the end of the data with the final `(remaining_position, total_pnl)`. -/
def simLoop (side : Side) (entry_price : ℚ) (time_limit : ℤ)
    (tp_targets : List TpTarget) :
    List Bar → ℚ → ℚ → ℚ → ℕ → ℕ → TradeOutcome ⊕ (ℚ × ℚ)
  | [], remaining, total_pnl, _, _, _ => Sum.inr (remaining, total_pnl)
  | row :: rest, remaining, total_pnl, current_sl, tp_index, k =>
    match stepEvent side entry_price time_limit tp_targets row
        remaining total_pnl current_sl tp_index k with
    | StepRes.closed out => Sum.inl out
    | StepRes.cont r t s i =>
      simLoop side entry_price time_limit tp_targets rest r t s i (k + 1)

/-- The dict returned by `check_entry_hit`: `hit`, `entry_time`,
`entry_index` (the row's positional index in the price list). -/
structure EntryInfo where
  hit : Bool
  entry_time : Option ℤ
  entry_index : Option ℕ
  deriving DecidableEq, Repr

/-- Entry-fill test: long → `low ≤ entry_price`, short → `high ≥ entry_price`. -/
def entryHitBar (side : Side) (entry_price : ℚ) (row : Bar) : Bool :=
  match side with
  | Side.long => decide (row.low ≤ entry_price)
  | Side.short => decide (row.high ≥ entry_price)

/-- The scan loop of `check_entry_hit`: walk the rows in order, carrying the
positional index, and stop at the first row at or after the signal time
whose range touches the entry level (the source filters
`timestamp >= signal_datetime` first and then scans; scanning for the
conjunction visits the same rows in the same order). -/
def entryScan (side : Side) (entry_price : ℚ) (signal_time : ℤ) :
    List Bar → ℕ → Option (ℕ × Bar)
  | [], _ => none
  | row :: rest, i =>
    if decide (signal_time ≤ row.timestamp) && entryHitBar side entry_price row then
      some (i, row)
    else
      entryScan side entry_price signal_time rest (i + 1)

/-- `SignalBacktester.check_entry_hit`: the first bar at or after the signal
time whose range touches the entry level, as `{hit, entry_time, entry_index}`. -/
def check_entry_hit (price_data : List Bar) (signal_time : ℤ)
    (entry_price : ℚ) (side : Side) : EntryInfo :=
  match entryScan side entry_price signal_time price_data 0 with
  | some (i, row) => ⟨true, some row.timestamp, some i⟩
  | none => ⟨false, none, none⟩

/-- `SignalBacktester.simulate_trade`.  `after_entry = price_data.loc[entry_idx:]`
becomes `price_data.drop entry_idx`; the loop runs over `after_entry.iloc[1:]`
(the entry bar is skipped) starting with bar counter 2; if the loop falls
through, the remainder is force-closed at the close of `after_entry.iloc[-1]`.
The `getLast? = none` branch is unreachable in the source (there
`after_entry` always contains the entry bar; an empty frame would raise). -/
def simulate_trade (price_data : List Bar) (entry_info : EntryInfo)
    (entry_price tp_price sl_price : ℚ) (side : Side) (hours_limit : ℤ)
    (tp_levels : Option (List ℚ)) : TradeOutcome :=
  if entry_info.hit = false then
    ⟨TradeResult.no_entry, 0, 0, none, none, 0⟩
  else
    match entry_info.entry_time, entry_info.entry_index with
    | some entry_time, some entry_idx =>
      let after_entry := price_data.drop entry_idx
      let time_limit := entry_time + hours_limit * 60
      let tp_targets := mkTpTargets entry_price tp_price tp_levels
      match simLoop side entry_price time_limit tp_targets
          (after_entry.drop 1) 1 0 sl_price 0 2 with
      | Sum.inl out => out
      | Sum.inr (remaining, total_pnl) =>
        match after_entry.getLast? with
        | some last_row =>
          let exit_price := last_row.close
          let tot := total_pnl + pnlOf side entry_price exit_price remaining
          ⟨TradeResult.expired, tot, tot / POSITION_SIZE_USDT * 100,
            some last_row.timestamp, some exit_price, after_entry.length⟩
        | none =>
          ⟨TradeResult.expired, total_pnl, total_pnl / POSITION_SIZE_USDT * 100,
            none, none, 0⟩
    | _, _ => ⟨TradeResult.no_entry, 0, 0, none, none, 0⟩

/-! ## Capital ledger loop of `simple_backtest.main` -/

/-- The fields of the result dict produced by
`SignalBacktester.backtest_signal` that the ledger loop of
`simple_backtest.main` reads.  Note the dict's keys are `status`, `symbol`,
`side`, pricing fields, `entry_hit`, plus the `simulate_trade` keys
(`result`, `pnl`, `pnl_percent`, `exit_time`, `exit_price`,
`bars_in_trade`); there is NO `entry_time` key, so in the ledger loop
`result.get('entry_time')` always yields `None`. -/
structure BtResult where
  status : String
  entry_hit : Bool
  pnl : ℚ
  exit_time : Option ℤ
  deriving DecidableEq, Repr

/-- The mutable state of the ledger loop in `simple_backtest.main`:
`current_balance` and the keys of the `open_positions` dict. -/
structure LedgerState where
  current_balance : ℚ
  open_positions : List String
  deriving DecidableEq, Repr

/-- One iteration of the signal loop in `simple_backtest.main`, for a signal
on `symbol` whose backtest evaluates to `res`.  Checks run in the source's
order: the max-concurrent-positions gate, then the balance gate (the literal
`50` is `POSITION_SIZE_USDT`), then the trade is backtested and the balance
updated.  `result.get('entry_time')` is `None` (the dict has no such key),
so the symbol is never added to `open_positions`; the subsequent
`if exit_time and symbol in open_positions` delete keeps it absent either
way.  Returns the new state and the status string recorded in `results`. -/
def ledgerStep (max_concurrent_positions : ℕ) (st : LedgerState)
    (symbol : String) (res : BtResult) : LedgerState × String :=
  if max_concurrent_positions ≤ st.open_positions.length then
    (st, "max_positions_reached")
  else if st.current_balance < 50 then
    (st, "insufficient_balance")
  else if res.status = "completed" && res.entry_hit then
    let entry_time : Option ℤ := none
    let op1 :=
      match entry_time with
      | some _ =>
        if symbol ∈ st.open_positions then st.open_positions
        else st.open_positions ++ [symbol]
      | none => st.open_positions
    let op2 :=
      match res.exit_time with
      | some _ => op1.filter (fun s => ¬ s = symbol)
      | none => op1
    (⟨st.current_balance + res.pnl, op2⟩, res.status)
  else
    (st, res.status)

/-- The whole sequential replay loop of `simple_backtest.main` over a
timestamp-ordered signal stream, each signal paired with its backtest
result; accumulates the ledger state and the recorded status strings. -/
def runLedger (max_concurrent_positions : ℕ) :
    LedgerState → List (String × BtResult) → LedgerState × List String
  | st, [] => (st, [])
  | st, (symbol, res) :: rest =>
    let step := ledgerStep max_concurrent_positions st symbol res
    let tail := runLedger max_concurrent_positions step.1 rest
    (tail.1, step.2 :: tail.2)

/-! ## Take-profit back-fill of `AutomatedTradingSystem.place_order_from_signal` -/

/-- The take-profit preparation in `place_order_from_signal`: pad `tp_list`
with `None` to length 4, destructure into `tp1..tp4`, then run the three
back-fill conditionals in the source's order (`tp4` from the original
`tp3`, `tp3` from the original `tp2`, `tp2` from the original `tp1`),
mirroring Python's sequential reassignment. -/
def fillMissingTps (tp_list : List ℚ) : Option ℚ × Option ℚ × Option ℚ × Option ℚ :=
  let padded := tp_list.map some ++ List.replicate (4 - tp_list.length) none
  let tp1 := (padded.get? 0).join
  let tp2 := (padded.get? 1).join
  let tp3 := (padded.get? 2).join
  let tp4 := (padded.get? 3).join
  let tp4 := if tp4 = none ∧ ¬ tp3 = none then tp3 else tp4
  let tp3 := if tp3 = none ∧ ¬ tp2 = none then tp2 else tp3
  let tp2 := if tp2 = none ∧ ¬ tp1 = none then tp1 else tp2
  (tp1, tp2, tp3, tp4)

/-! ## Live monitor poll logic of `BinanceFuturesTrader` -/

/-- Binance order statuses as read by `check_order_status`. -/
inductive OrderStatus where
  | NEW : OrderStatus
  | PARTIALLY_FILLED : OrderStatus
  | FILLED : OrderStatus
  | CANCELED : OrderStatus
  | REJECTED : OrderStatus
  | EXPIRED : OrderStatus
  | UNKNOWN : OrderStatus
  deriving DecidableEq, Repr

/-- `filled_tps` of the monitor loop: the number of take-profit orders whose
queried status is `FILLED` (a `none` query result counts neither as filled
nor as active). -/
def countFilledTps (tp_statuses : List (Option OrderStatus)) : ℕ :=
  (tp_statuses.filter (fun s => s = some OrderStatus.FILLED)).length

/-- `active_tp_ids` of the monitor loop: the order ids whose status is `NEW`
or `PARTIALLY_FILLED`, in order. -/
def activeTpIds (tp_order_ids : List ℕ)
    (tp_statuses : List (Option OrderStatus)) : List ℕ :=
  ((tp_statuses.zip tp_order_ids).filter
    (fun p => p.1 = some OrderStatus.NEW ∨ p.1 = some OrderStatus.PARTIALLY_FILLED)).map
    (fun p => p.2)

/-- `sl_filled` of the monitor loop. -/
def slFilled (sl_status : Option OrderStatus) : Bool :=
  sl_status = some OrderStatus.FILLED

/-- `sl_active` of the monitor loop. -/
def slActive (sl_status : Option OrderStatus) : Bool :=
  sl_status = some OrderStatus.NEW || sl_status = some OrderStatus.PARTIALLY_FILLED

/-- What one poll iteration of `monitor_and_manage_orders` decides: whether
the monitor retires (breaks out of the loop, after removing itself from
`active_monitors`), and which order ids it cancels. -/
structure PollDecision where
  retire : Bool
  cancels : List ℕ
  deriving DecidableEq, Repr

/-- One poll iteration of `monitor_and_manage_orders` after the status
queries: scenario 1 (`filled_tps == 4`) cancels the stop order if it is
still active and retires; scenario 2 (stop filled) cancels the remaining
active take-profit orders and retires; scenario 3 (stop not active and no
active take-profits) retires with no cancellation; otherwise the loop
sleeps and continues. -/
def pollStep (sl_order_id : ℕ) (sl_status : Option OrderStatus)
    (tp_order_ids : List ℕ) (tp_statuses : List (Option OrderStatus)) :
    PollDecision :=
  let filled_tps := countFilledTps tp_statuses
  let active_tp_ids := activeTpIds tp_order_ids tp_statuses
  if filled_tps = 4 then
    ⟨true, if slActive sl_status then [sl_order_id] else []⟩
  else if slFilled sl_status then
    ⟨true, active_tp_ids⟩
  else if ¬ slActive sl_status ∧ active_tp_ids = [] then
    ⟨true, []⟩
  else
    ⟨false, []⟩

/-- An entry of the `active_monitors` registry (the fields `_remove_monitor`
matches on). -/
structure MonitorRec where
  symbol : String
  sl_order_id : ℕ
  deriving DecidableEq, Repr

/-- `BinanceFuturesTrader._remove_monitor`: keep every monitor that does not
match both the symbol and the stop-loss order id. -/
def remove_monitor (monitors : List MonitorRec) (symbol : String)
    (sl_order_id : ℕ) : List MonitorRec :=
  monitors.filter
    (fun m => ¬ (m.symbol = symbol ∧ m.sl_order_id = sl_order_id))

/-! ## Derived quantities used to state ladder properties -/

/-- The amounts (as fractions of the original position) closed by the tiers
of a ladder when they trigger in order, starting from remaining fraction
`r`; each tier closes `remaining * close_pct`, exactly as the update at the
take-profit branch of `simulate_trade`. -/
def closedAmounts : ℚ → List TpTarget → List ℚ
  | _, [] => []
  | r, tgt :: rest => r * tgt.close_pct :: closedAmounts (r - r * tgt.close_pct) rest

/-- The remaining fraction after the tiers of a ladder trigger in order,
starting from remaining fraction `r`. -/
def remainingAfter (r : ℚ) (ladder : List TpTarget) : ℚ :=
  ladder.foldl (fun rem tgt => rem - rem * tgt.close_pct) r

/-! ## Theorems -/

/-- Claim C1: per bar event on an open position, the checks apply in fixed
priority.  The time-limit check comes first and, when it fires, the whole
remaining fraction is force-closed at that bar's close with result
`expired`, with no stop or take-profit check consulted (the outcome is
fully determined whatever the bar's high and low); otherwise the stop check
precedes the take-profit check; and a single event advances the tier index
by at most one, so at most one tier triggers per event. -/
theorem claim_C1 :
    (∀ (side : Side) (entry_price : ℚ) (time_limit : ℤ) (tp_targets : List TpTarget)
      (row : Bar) (remaining total_pnl current_sl : ℚ) (tp_index k : ℕ),
      time_limit < row.timestamp →
      stepEvent side entry_price time_limit tp_targets row
          remaining total_pnl current_sl tp_index k =
        StepRes.closed ⟨TradeResult.expired,
          total_pnl + pnlOf side entry_price row.close remaining,
          (total_pnl + pnlOf side entry_price row.close remaining)
            / POSITION_SIZE_USDT * 100,
          some row.timestamp, some row.close, k⟩) ∧
    (∀ (side : Side) (entry_price : ℚ) (time_limit : ℤ) (tp_targets : List TpTarget)
      (row : Bar) (remaining total_pnl current_sl : ℚ) (tp_index k : ℕ),
      ¬ time_limit < row.timestamp →
      slHit side current_sl row = true →
      stepEvent side entry_price time_limit tp_targets row
          remaining total_pnl current_sl tp_index k =
        StepRes.closed
          ⟨if total_pnl + (if |current_sl - entry_price| < 1 / 10000 then 0
                else pnlOf side entry_price current_sl remaining) < 0
              then TradeResult.loss else TradeResult.win,
            total_pnl + (if |current_sl - entry_price| < 1 / 10000 then 0
                else pnlOf side entry_price current_sl remaining),
            (total_pnl + (if |current_sl - entry_price| < 1 / 10000 then 0
                else pnlOf side entry_price current_sl remaining))
              / POSITION_SIZE_USDT * 100,
            some row.timestamp, some current_sl, k⟩) ∧
    (∀ (side : Side) (entry_price : ℚ) (time_limit : ℤ) (tp_targets : List TpTarget)
      (row : Bar) (remaining total_pnl current_sl : ℚ) (tp_index k : ℕ)
      (r t s : ℚ) (i : ℕ),
      stepEvent side entry_price time_limit tp_targets row
          remaining total_pnl current_sl tp_index k = StepRes.cont r t s i →
      i ≤ tp_index + 1) := by
  refine ⟨?_, ?_, ?_⟩
  · intro side entry_price time_limit tp_targets row remaining total_pnl current_sl tp_index k h
    unfold stepEvent
    rw [if_pos h]
  · intro side entry_price time_limit tp_targets row remaining total_pnl current_sl tp_index k h1 h2
    unfold stepEvent
    rw [if_neg h1, if_pos h2]
  · intro side entry_price time_limit tp_targets row remaining total_pnl current_sl tp_index k
      r t s i h
    simp only [stepEvent] at h
    split at h
    · exact absurd h (by simp)
    · split at h
      · exact absurd h (by simp)
      · split at h
        · injection h with h1 h2 h3 h4
          omega
        · split at h
          · split at h
            · split at h
              · exact absurd h (by simp)
              · injection h with h1 h2 h3 h4
                omega
            · injection h with h1 h2 h3 h4
              omega
          · injection h with h1 h2 h3 h4
            omega

/-- Witness for claim C1: the expired branch, the breakeven stop branch and
the no-trigger continuation at concrete bars. -/
theorem claim_C1_witness :
    stepEvent Side.long 100 240 [] ⟨241, 150, 90, 150⟩ 1 0 95 0 2 =
      StepRes.closed ⟨TradeResult.expired, 500, 1000, some 241, some 150, 2⟩ ∧
    stepEvent Side.long 100 240 [⟨102, 1, none⟩] ⟨1, 101, 99, 100⟩ 1 0 100 0 3 =
      StepRes.closed ⟨TradeResult.win, 0, 0, some 1, some 100, 3⟩ ∧
    (0 : ℕ) ≤ 0 + 1 := by
  refine ⟨?_, ?_, ?_⟩
  · exact (claim_C1.1 Side.long 100 240 [] ⟨241, 150, 90, 150⟩ 1 0 95 0 2
      (by norm_num)).trans (by norm_num [pnlOf, POSITION_SIZE_USDT, LEVERAGE])
  · exact (claim_C1.2.1 Side.long 100 240 [⟨102, 1, none⟩] ⟨1, 101, 99, 100⟩ 1 0 100 0 3
      (by norm_num) (by norm_num [slHit])).trans (by norm_num)
  · exact claim_C1.2.2 Side.long 100 240 [⟨102, 1, none⟩] ⟨1, 100, 96, 98⟩ 1 0 95 0 5
      1 0 95 0 (by norm_num [stepEvent, slHit, tpHit])

/-- Claim C2: with exactly 4 take-profit prices the ladder closes 50% at
tier 1 moving the stop to entry, 50% of the remainder (25% of original) at
tier 2 moving the stop to the tier-1 price, 50% of the remainder (12.5%) at
tier 3 moving the stop to the tier-2 price, and all remaining (12.5%) at
tier 4 moving the stop to the tier-3 price; the closed fractions of the
original position are 1/2, 1/4, 1/8, 1/8 summing to exactly 1 with nothing
remaining; and the tier-4 trigger closes the position with result `win`
(the remainder after it falls below the 0.01 threshold). -/
theorem claim_C2 :
    (∀ e tp t1 t2 t3 t4 : ℚ,
      mkTpTargets e tp (some [t1, t2, t3, t4]) =
        [⟨t1, 1 / 2, some e⟩, ⟨t2, 1 / 2, some t1⟩,
         ⟨t3, 1 / 2, some t2⟩, ⟨t4, 1, some t3⟩]) ∧
    (∀ e tp t1 t2 t3 t4 : ℚ,
      closedAmounts 1 (mkTpTargets e tp (some [t1, t2, t3, t4])) =
        [1 / 2, 1 / 4, 1 / 8, 1 / 8] ∧
      (closedAmounts 1 (mkTpTargets e tp (some [t1, t2, t3, t4]))).sum = 1 ∧
      remainingAfter 1 (mkTpTargets e tp (some [t1, t2, t3, t4])) = 0) ∧
    (∀ (side : Side) (e tp t1 t2 t3 t4 : ℚ) (time_limit : ℤ) (row : Bar)
      (remaining total_pnl current_sl : ℚ) (k : ℕ),
      ¬ time_limit < row.timestamp →
      slHit side current_sl row = false →
      0 < remaining →
      tpHit side t4 row = true →
      stepEvent side e time_limit (mkTpTargets e tp (some [t1, t2, t3, t4])) row
          remaining total_pnl current_sl 3 k =
        StepRes.closed ⟨TradeResult.win,
          total_pnl + pnlOf side e t4 (remaining * 1),
          (total_pnl + pnlOf side e t4 (remaining * 1)) / POSITION_SIZE_USDT * 100,
          some row.timestamp, some t4, k⟩) ∧
    simulate_trade
        [⟨0, 100, 100, 100⟩, ⟨1, 103, 101, 102⟩, ⟨2, 105, 101, 104⟩,
         ⟨3, 107, 103, 106⟩, ⟨4, 109, 105, 108⟩]
        ⟨true, some 0, some 0⟩ 100 102 95 Side.long 4
        (some [102, 104, 106, 108]) =
      ⟨TradeResult.win, 75 / 2, 75, some 4, some 108, 5⟩ := by
  refine ⟨?_, ?_, ?_, ?_⟩
  · intro e tp t1 t2 t3 t4
    rfl
  · intro e tp t1 t2 t3 t4
    refine ⟨?_, ?_, ?_⟩ <;>
      norm_num [closedAmounts, remainingAfter, mkTpTargets]
  · intro side e tp t1 t2 t3 t4 time_limit row remaining total_pnl current_sl k h1 h2 h3 h4
    have hsl : ¬ slHit side current_sl row = true := by simp [h2]
    simp only [stepEvent, mkTpTargets, List.get?]
    rw [if_neg h1, if_neg hsl, if_pos h3, if_pos h4,
      if_pos (show remaining - remaining * 1 < 1 / 100 by ring_nf; norm_num)]
  · norm_num [simulate_trade, simLoop, stepEvent, mkTpTargets, slHit, tpHit, pnlOf,
      POSITION_SIZE_USDT, LEVERAGE]

/-- Witness for claim C2: the tier-4 close applied at the last bar of the
concrete four-tier run. -/
theorem claim_C2_witness :
    stepEvent Side.long 100 240 (mkTpTargets 100 102 (some [102, 104, 106, 108]))
        ⟨4, 109, 105, 108⟩ (1 / 8) (55 / 2) 104 3 5 =
      StepRes.closed ⟨TradeResult.win, 75 / 2, 75, some 4, some 108, 5⟩ := by
  refine (claim_C2.2.2.1 Side.long 100 102 102 104 106 108 240 ⟨4, 109, 105, 108⟩
    (1 / 8) (55 / 2) 104 5 (by norm_num) (by norm_num [slHit]) (by norm_num)
    (by norm_num [tpHit])).trans ?_
  norm_num [pnlOf, POSITION_SIZE_USDT, LEVERAGE]

/-- Claim C3: whenever the stop check triggers on a bar (long: low at or
below the stop; short: high at or above it) and the time limit has not
passed, the whole remaining fraction is closed at exactly the current stop
(`exit_price = current_stop`), the pnl contribution is zero when the stop
is within 1e-4 of the entry price and directional otherwise, and the result
is `loss` exactly when the cumulative pnl is negative; and the concrete
short with entry 100, stop 105, TP1 98 hit by a bar with high 106 before
any low at or below 98 ends as `loss` with exit price 105. -/
theorem claim_C3 :
    (∀ (side : Side) (entry_price : ℚ) (time_limit : ℤ) (tp_targets : List TpTarget)
      (row : Bar) (remaining total_pnl current_sl : ℚ) (tp_index k : ℕ),
      ¬ time_limit < row.timestamp →
      slHit side current_sl row = true →
      stepEvent side entry_price time_limit tp_targets row
          remaining total_pnl current_sl tp_index k =
        StepRes.closed
          ⟨if total_pnl + (if |current_sl - entry_price| < 1 / 10000 then 0
                else pnlOf side entry_price current_sl remaining) < 0
              then TradeResult.loss else TradeResult.win,
            total_pnl + (if |current_sl - entry_price| < 1 / 10000 then 0
                else pnlOf side entry_price current_sl remaining),
            (total_pnl + (if |current_sl - entry_price| < 1 / 10000 then 0
                else pnlOf side entry_price current_sl remaining))
              / POSITION_SIZE_USDT * 100,
            some row.timestamp, some current_sl, k⟩) ∧
    simulate_trade [⟨0, 100, 99, 99⟩, ⟨1, 106, 99, 100⟩]
        (check_entry_hit [⟨0, 100, 99, 99⟩, ⟨1, 106, 99, 100⟩] 0 100 Side.short)
        100 98 105 Side.short 4 none =
      ⟨TradeResult.loss, -50, -100, some 1, some 105, 2⟩ := by
  constructor
  · intro side entry_price time_limit tp_targets row remaining total_pnl current_sl tp_index k h1 h2
    unfold stepEvent
    rw [if_neg h1, if_pos h2]
  · norm_num [simulate_trade, check_entry_hit, entryScan, entryHitBar, simLoop, stepEvent,
      mkTpTargets, slHit, tpHit, pnlOf, POSITION_SIZE_USDT, LEVERAGE]

/-- Witness for claim C3: the stop branch applied to the concrete short bar
of the scenario. -/
theorem claim_C3_witness :
    stepEvent Side.short 100 240 [⟨98, 1, none⟩] ⟨1, 106, 99, 100⟩ 1 0 105 0 2 =
      StepRes.closed ⟨TradeResult.loss, -50, -100, some 1, some 105, 2⟩ := by
  refine (claim_C3.1 Side.short 100 240 [⟨98, 1, none⟩] ⟨1, 106, 99, 100⟩ 1 0 105 0 2
    (by norm_num) (by norm_num [slHit])).trans ?_
  norm_num [pnlOf, POSITION_SIZE_USDT, LEVERAGE]

/-- Claim C4 (failing evaluation): the take-profit back-fill of
`place_order_from_signal` does NOT fill every missing trailing tier with the
last known price: with one supplied TP only `tp2` is filled and with two
supplied TPs only `tp3` is, because the cascade runs `tp4` from the old
`tp3`, `tp3` from the old `tp2`, `tp2` from the old `tp1`; only the
three-TP case ends fully filled. -/
theorem claim_C4 :
    fillMissingTps [100] = (some 100, some 100, none, none) ∧
    fillMissingTps [100, 98] = (some 100, some 98, some 98, none) ∧
    fillMissingTps [100, 98, 97] = (some 100, some 98, some 97, some 97) := by
  refine ⟨by decide, by decide, by decide⟩

/-- Claim C5 (failing evaluation): with `max_concurrent_positions = 1`,
starting balance 1000 and position size 50, two profitable signals at the
same instant are BOTH admitted and processed (statuses `completed`,
`completed`); the second is not rejected with `max_positions_reached`,
because the loop reads the missing `entry_time` key of the backtest result
dict and therefore never records an open position. -/
theorem claim_C5 :
    runLedger 1 ⟨1000, []⟩
        [("A", ⟨"completed", true, 10, some 100⟩),
         ("B", ⟨"completed", true, 10, some 100⟩)] =
      (⟨1020, []⟩, ["completed", "completed"]) := by
  norm_num [runLedger, ledgerStep]

/-- Counterexample to claim C6 as stated: a monitor whose three configured
take-profit orders are all observed `FILLED` while the stop order is still
active neither cancels the stop nor retires — the all-filled scenario is
hard-coded to a count of 4, not to the number of configured orders. -/
theorem claim_C6_counterexample :
    pollStep 7 (some OrderStatus.NEW) [1, 2, 3]
        [some OrderStatus.FILLED, some OrderStatus.FILLED, some OrderStatus.FILLED] =
      ⟨false, []⟩ := by
  decide

/-- Claim C6 (amended): when 4 take-profit fills are observed the monitor
cancels the stop order if it is still active and retires; when the stop is
observed `FILLED` (and fewer than 4 take-profit fills are seen) it cancels
exactly the still-active take-profit orders and retires; it retires only in
those two cases or in the all-inactive edge case; and retirement removes
the monitor record from the registry. -/
theorem claim_C6 :
    (∀ (sl_order_id : ℕ) (sl_status : Option OrderStatus)
      (tp_order_ids : List ℕ) (tp_statuses : List (Option OrderStatus)),
      countFilledTps tp_statuses = 4 →
      pollStep sl_order_id sl_status tp_order_ids tp_statuses =
        ⟨true, if slActive sl_status then [sl_order_id] else []⟩) ∧
    (∀ (sl_order_id : ℕ) (sl_status : Option OrderStatus)
      (tp_order_ids : List ℕ) (tp_statuses : List (Option OrderStatus)),
      ¬ countFilledTps tp_statuses = 4 →
      slFilled sl_status = true →
      pollStep sl_order_id sl_status tp_order_ids tp_statuses =
        ⟨true, activeTpIds tp_order_ids tp_statuses⟩) ∧
    (∀ (sl_order_id : ℕ) (sl_status : Option OrderStatus)
      (tp_order_ids : List ℕ) (tp_statuses : List (Option OrderStatus)),
      (pollStep sl_order_id sl_status tp_order_ids tp_statuses).retire = true →
      countFilledTps tp_statuses = 4 ∨ slFilled sl_status = true ∨
        (slActive sl_status = false ∧ activeTpIds tp_order_ids tp_statuses = [])) ∧
    (∀ (monitors : List MonitorRec) (symbol : String) (sl_order_id : ℕ)
      (m : MonitorRec), m ∈ remove_monitor monitors symbol sl_order_id →
      ¬ (m.symbol = symbol ∧ m.sl_order_id = sl_order_id)) := by
  refine ⟨?_, ?_, ?_, ?_⟩
  · intro sl_order_id sl_status tp_order_ids tp_statuses h
    simp only [pollStep, h, if_pos]
  · intro sl_order_id sl_status tp_order_ids tp_statuses h1 h2
    simp only [pollStep]
    rw [if_neg h1, if_pos h2]
  · intro sl_order_id sl_status tp_order_ids tp_statuses h
    by_cases h1 : countFilledTps tp_statuses = 4
    · exact Or.inl h1
    · by_cases h2 : slFilled sl_status = true
      · exact Or.inr (Or.inl h2)
      · by_cases h3 : ¬ slActive sl_status = true ∧
            activeTpIds tp_order_ids tp_statuses = []
        · exact Or.inr (Or.inr ⟨by simpa using h3.1, h3.2⟩)
        · simp only [pollStep] at h
          rw [if_neg h1, if_neg h2, if_neg h3] at h
          exact absurd h (by decide)
  · intro monitors symbol sl_order_id m hm
    unfold remove_monitor at hm
    exact of_decide_eq_true (List.mem_filter.mp hm).2

/-- Witness for claim C6: the four parts applied at concrete poll states. -/
theorem claim_C6_witness :
    pollStep 7 (some OrderStatus.NEW) [1, 2, 3, 4]
        [some OrderStatus.FILLED, some OrderStatus.FILLED,
         some OrderStatus.FILLED, some OrderStatus.FILLED] = ⟨true, [7]⟩ ∧
    pollStep 7 (some OrderStatus.FILLED) [1, 2, 3, 4]
        [some OrderStatus.FILLED, some OrderStatus.NEW,
         some OrderStatus.FILLED, some OrderStatus.NEW] = ⟨true, [2, 4]⟩ ∧
    (countFilledTps ([] : List (Option OrderStatus)) = 4 ∨
      slFilled (some OrderStatus.FILLED) = true ∨
      (slActive (some OrderStatus.FILLED) = false ∧
        activeTpIds ([] : List ℕ) ([] : List (Option OrderStatus)) = [])) ∧
    ¬ (⟨"X", 1⟩ : MonitorRec) ∈ remove_monitor [⟨"X", 1⟩] "X" 1 := by
  refine ⟨?_, ?_, ?_, ?_⟩
  · exact (claim_C6.1 7 (some OrderStatus.NEW) [1, 2, 3, 4] _ (by decide)).trans (by decide)
  · exact (claim_C6.2.1 7 (some OrderStatus.FILLED) [1, 2, 3, 4] _
      (by decide) (by decide)).trans (by decide)
  · exact claim_C6.2.2.1 7 (some OrderStatus.FILLED) [] [] (by decide)
  · intro hm
    exact claim_C6.2.2.2 [⟨"X", 1⟩] "X" 1 ⟨"X", 1⟩ hm ⟨rfl, rfl⟩

/-- Claim C7: the stop, take-profit and time-limit checks are never applied
to the entry bar itself — with at least one later bar, the trade outcome
does not depend on the entry bar at all (scanning starts at the bar after
it); and when no exit condition fires by the final available bar, the
remaining position is force-closed at the last available close price with
result `expired`. -/
theorem claim_C7 :
    (∀ (b b2 c : Bar) (rest : List Bar) (entry_time : ℤ)
      (entry_price tp_price sl_price : ℚ) (side : Side) (hours_limit : ℤ)
      (tp_levels : Option (List ℚ)),
      simulate_trade (b :: c :: rest) ⟨true, some entry_time, some 0⟩
          entry_price tp_price sl_price side hours_limit tp_levels =
        simulate_trade (b2 :: c :: rest) ⟨true, some entry_time, some 0⟩
          entry_price tp_price sl_price side hours_limit tp_levels) ∧
    (∀ (b : Bar) (rest : List Bar) (entry_time : ℤ)
      (entry_price tp_price sl_price : ℚ) (side : Side) (hours_limit : ℤ)
      (tp_levels : Option (List ℚ)) (remaining total_pnl : ℚ) (last_row : Bar),
      simLoop side entry_price (entry_time + hours_limit * 60)
          (mkTpTargets entry_price tp_price tp_levels) rest 1 0 sl_price 0 2 =
        Sum.inr (remaining, total_pnl) →
      (b :: rest).getLast? = some last_row →
      simulate_trade (b :: rest) ⟨true, some entry_time, some 0⟩
          entry_price tp_price sl_price side hours_limit tp_levels =
        ⟨TradeResult.expired,
          total_pnl + pnlOf side entry_price last_row.close remaining,
          (total_pnl + pnlOf side entry_price last_row.close remaining)
            / POSITION_SIZE_USDT * 100,
          some last_row.timestamp, some last_row.close, (b :: rest).length⟩) := by
  constructor
  · intro b b2 c rest entry_time entry_price tp_price sl_price side hours_limit tp_levels
    simp only [simulate_trade, List.drop]
    cases simLoop side entry_price (entry_time + hours_limit * 60)
        (mkTpTargets entry_price tp_price tp_levels) (c :: rest) 1 0 sl_price 0 2 with
    | inl out => rfl
    | inr p =>
      cases p with
      | mk remaining total_pnl =>
        simp only [List.getLast?_cons_cons, List.length_cons]
  · intro b rest entry_time entry_price tp_price sl_price side hours_limit tp_levels
      remaining total_pnl last_row hsim hlast
    simp only [simulate_trade, List.drop]
    rw [hsim, hlast]
    rfl

/-- Witness for claim C7: the entry bar of a two-bar window is irrelevant to
the outcome, and a no-trigger single-step loop force-closes at the last
close with result `expired`. -/
theorem claim_C7_witness :
    simulate_trade [⟨0, 500, 1, 100⟩, ⟨1, 101, 99, 100⟩]
        ⟨true, some 0, some 0⟩ 100 110 90 Side.long 4 none =
      simulate_trade [⟨0, 1, 1, 1⟩, ⟨1, 101, 99, 100⟩]
        ⟨true, some 0, some 0⟩ 100 110 90 Side.long 4 none ∧
    simulate_trade [⟨0, 100, 100, 100⟩, ⟨1, 101, 99, 100⟩]
        ⟨true, some 0, some 0⟩ 100 110 90 Side.long 4 none =
      ⟨TradeResult.expired, 0 + pnlOf Side.long 100 100 1,
        (0 + pnlOf Side.long 100 100 1) / POSITION_SIZE_USDT * 100,
        some 1, some 100, 2⟩ := by
  constructor
  · exact claim_C7.1 ⟨0, 500, 1, 100⟩ ⟨0, 1, 1, 1⟩ ⟨1, 101, 99, 100⟩ [] 0
      100 110 90 Side.long 4 none
  · exact claim_C7.2 ⟨0, 100, 100, 100⟩ [⟨1, 101, 99, 100⟩] 0 100 110 90 Side.long 4 none
      1 0 ⟨1, 101, 99, 100⟩
      (by norm_num [simLoop, stepEvent, mkTpTargets, slHit, tpHit]) (by rfl)

/-- Counterexample to claim C8 as stated: a position that transitions to
CLOSED via the end-of-data force-close (result `expired`) does not ignore
further events — delivering the same terminal bar once more changes the
Outcome (here `bars_in_trade` goes from 2 to 3), because the end-of-data
close only fires at the final available event. -/
theorem claim_C8_counterexample :
    simulate_trade [⟨0, 100, 100, 100⟩, ⟨1, 101, 99, 100⟩]
        ⟨true, some 0, some 0⟩ 100 110 90 Side.long 4 none =
      ⟨TradeResult.expired, 0, 0, some 1, some 100, 2⟩ ∧
    simulate_trade [⟨0, 100, 100, 100⟩, ⟨1, 101, 99, 100⟩, ⟨1, 101, 99, 100⟩]
        ⟨true, some 0, some 0⟩ 100 110 90 Side.long 4 none =
      ⟨TradeResult.expired, 0, 0, some 1, some 100, 3⟩ ∧
    ¬ (simulate_trade [⟨0, 100, 100, 100⟩, ⟨1, 101, 99, 100⟩]
          ⟨true, some 0, some 0⟩ 100 110 90 Side.long 4 none =
        simulate_trade [⟨0, 100, 100, 100⟩, ⟨1, 101, 99, 100⟩, ⟨1, 101, 99, 100⟩]
          ⟨true, some 0, some 0⟩ 100 110 90 Side.long 4 none) := by
  refine ⟨?_, ?_, ?_⟩ <;>
    norm_num [simulate_trade, simLoop, stepEvent, mkTpTargets, slHit, tpHit, pnlOf,
      POSITION_SIZE_USDT, LEVERAGE]

/-- Claim C8 (amended): once the position transitions to CLOSED by an
in-loop terminal event (time-limit expiry, stop hit, or final take-profit
close), bars appended after the terminal bar — including the terminal bar
delivered again — leave the Outcome unchanged in every field; the
end-of-data force-close is excluded, since it fires only at the final
available event and is re-evaluated when more events exist. -/
theorem claim_C8 :
    (∀ (side : Side) (entry_price : ℚ) (time_limit : ℤ) (tp_targets : List TpTarget)
      (bars extra : List Bar) (remaining total_pnl current_sl : ℚ)
      (tp_index k : ℕ) (out : TradeOutcome),
      simLoop side entry_price time_limit tp_targets bars
          remaining total_pnl current_sl tp_index k = Sum.inl out →
      simLoop side entry_price time_limit tp_targets (bars ++ extra)
          remaining total_pnl current_sl tp_index k = Sum.inl out) ∧
    (∀ (b : Bar) (rest extra : List Bar) (entry_time : ℤ)
      (entry_price tp_price sl_price : ℚ) (side : Side) (hours_limit : ℤ)
      (tp_levels : Option (List ℚ)) (out : TradeOutcome),
      simLoop side entry_price (entry_time + hours_limit * 60)
          (mkTpTargets entry_price tp_price tp_levels) rest 1 0 sl_price 0 2 =
        Sum.inl out →
      simulate_trade (b :: rest) ⟨true, some entry_time, some 0⟩
          entry_price tp_price sl_price side hours_limit tp_levels = out ∧
      simulate_trade (b :: (rest ++ extra)) ⟨true, some entry_time, some 0⟩
          entry_price tp_price sl_price side hours_limit tp_levels = out) := by
  have key : ∀ (side : Side) (entry_price : ℚ) (time_limit : ℤ)
      (tp_targets : List TpTarget) (bars : List Bar), ∀ (extra : List Bar)
      (remaining total_pnl current_sl : ℚ) (tp_index k : ℕ) (out : TradeOutcome),
      simLoop side entry_price time_limit tp_targets bars
          remaining total_pnl current_sl tp_index k = Sum.inl out →
      simLoop side entry_price time_limit tp_targets (bars ++ extra)
          remaining total_pnl current_sl tp_index k = Sum.inl out := by
    intro side entry_price time_limit tp_targets bars
    induction bars with
    | nil =>
      intro extra remaining total_pnl current_sl tp_index k out h
      exact absurd h (by simp [simLoop])
    | cons row rest ih =>
      intro extra remaining total_pnl current_sl tp_index k out h
      rw [List.cons_append]
      simp only [simLoop] at h ⊢
      cases hstep : stepEvent side entry_price time_limit tp_targets row
          remaining total_pnl current_sl tp_index k with
      | closed out2 => rw [hstep] at h; exact h
      | cont r t s i =>
        rw [hstep] at h
        exact ih extra r t s i (k + 1) out h
  constructor
  · exact key
  · intro b rest extra entry_time entry_price tp_price sl_price side hours_limit
      tp_levels out h
    constructor
    · simp only [simulate_trade, List.drop]
      rw [h]
      rfl
    · simp only [simulate_trade, List.drop]
      rw [key side entry_price (entry_time + hours_limit * 60)
        (mkTpTargets entry_price tp_price tp_levels) rest extra 1 0 sl_price 0 2 out h]
      rfl

/-- Witness for claim C8: a stop hit on the second bar fixes the Outcome in
both the original and the extended bar stream. -/
theorem claim_C8_witness :
    simulate_trade [⟨0, 100, 100, 100⟩, ⟨1, 101, 89, 95⟩]
        ⟨true, some 0, some 0⟩ 100 110 90 Side.long 4 none =
      ⟨TradeResult.loss, -100, -200, some 1, some 90, 2⟩ ∧
    simulate_trade [⟨0, 100, 100, 100⟩, ⟨1, 101, 89, 95⟩, ⟨2, 200, 150, 180⟩]
        ⟨true, some 0, some 0⟩ 100 110 90 Side.long 4 none =
      ⟨TradeResult.loss, -100, -200, some 1, some 90, 2⟩ := by
  have hsim : simLoop Side.long 100 (0 + 4 * 60) (mkTpTargets 100 110 none)
      [⟨1, 101, 89, 95⟩] 1 0 90 0 2 =
      Sum.inl ⟨TradeResult.loss, -100, -200, some 1, some 90, 2⟩ := by
    norm_num [simLoop, stepEvent, mkTpTargets, slHit, tpHit, pnlOf,
      POSITION_SIZE_USDT, LEVERAGE]
  have h := claim_C8.2 ⟨0, 100, 100, 100⟩ [⟨1, 101, 89, 95⟩] [⟨2, 200, 150, 180⟩] 0
    100 110 90 Side.long 4 none ⟨TradeResult.loss, -100, -200, some 1, some 90, 2⟩ hsim
  exact ⟨h.1, h.2⟩

/-- Claim C9: a signal whose entry condition is never satisfied yields the
`no_entry` outcome with zero pnl, no exit time and zero bars in trade; in
particular for a long signal whose entry level lies strictly below every
low of the available window, `check_entry_hit` reports no hit. -/
theorem claim_C9 :
    (∀ (price_data : List Bar) (signal_time : ℤ)
      (entry_price tp_price sl_price : ℚ) (side : Side) (hours_limit : ℤ)
      (tp_levels : Option (List ℚ)),
      (check_entry_hit price_data signal_time entry_price side).hit = false →
      simulate_trade price_data
          (check_entry_hit price_data signal_time entry_price side)
          entry_price tp_price sl_price side hours_limit tp_levels =
        ⟨TradeResult.no_entry, 0, 0, none, none, 0⟩) ∧
    (∀ (price_data : List Bar) (signal_time : ℤ) (entry_price : ℚ),
      (∀ row ∈ price_data, entry_price < row.low) →
      check_entry_hit price_data signal_time entry_price Side.long =
        ⟨false, none, none⟩) := by
  constructor
  · intro price_data signal_time entry_price tp_price sl_price side hours_limit tp_levels h
    unfold simulate_trade
    rw [if_pos h]
  · intro price_data signal_time entry_price h
    have key : ∀ (l : List Bar), (∀ row ∈ l, entry_price < row.low) → ∀ (i : ℕ),
        entryScan Side.long entry_price signal_time l i = none := by
      intro l
      induction l with
      | nil => intro _ i; rfl
      | cons row rest ih =>
        intro hl i
        have hrow : entry_price < row.low := hl row (List.mem_cons_self row rest)
        have hbar : entryHitBar Side.long entry_price row = false := by
          simp only [entryHitBar, decide_eq_false_iff_not]
          exact not_le.mpr hrow
        have hcond : (decide (signal_time ≤ row.timestamp) &&
            entryHitBar Side.long entry_price row) = false := by
          rw [hbar, Bool.and_false]
        simp only [entryScan, hcond, Bool.false_eq_true, if_false]
        exact ih (fun r hr => hl r (List.mem_cons_of_mem row hr)) (i + 1)
    unfold check_entry_hit
    rw [key price_data h 0]

/-- Witness for claim C9: a long signal with entry 50 and all lows above 50
never enters; the outcome is `no_entry` with pnl 0. -/
theorem claim_C9_witness :
    simulate_trade [⟨0, 60, 51, 55⟩, ⟨1, 58, 52, 53⟩]
        (check_entry_hit [⟨0, 60, 51, 55⟩, ⟨1, 58, 52, 53⟩] 0 50 Side.long)
        50 55 45 Side.long 12 none =
      ⟨TradeResult.no_entry, 0, 0, none, none, 0⟩ ∧
    check_entry_hit [⟨0, 60, 51, 55⟩, ⟨1, 58, 52, 53⟩] 0 50 Side.long =
      ⟨false, none, none⟩ := by
  constructor
  · refine claim_C9.1 [⟨0, 60, 51, 55⟩, ⟨1, 58, 52, 53⟩] 0 50 55 45 Side.long 12 none ?_
    norm_num [check_entry_hit, entryScan, entryHitBar]
  · refine claim_C9.2 [⟨0, 60, 51, 55⟩, ⟨1, 58, 52, 53⟩] 0 50 ?_
    intro row hrow
    rcases List.mem_cons.mp hrow with h | h2
    · rw [h]; norm_num
    · rw [List.mem_singleton] at h2
      rw [h2]; norm_num

/-- Helper: a continuing step never increases the remaining fraction and
keeps it nonnegative, given that every tier closes a fraction in (0, 1]. -/
theorem stepEvent_cont_bounds (side : Side) (entry_price : ℚ) (time_limit : ℤ)
    (tp_targets : List TpTarget) (row : Bar)
    (remaining total_pnl current_sl : ℚ) (tp_index k : ℕ)
    (r' t' s' : ℚ) (i' : ℕ)
    (h0 : 0 ≤ remaining)
    (hpct : ∀ tgt ∈ tp_targets, 0 < tgt.close_pct ∧ tgt.close_pct ≤ 1)
    (h : stepEvent side entry_price time_limit tp_targets row
        remaining total_pnl current_sl tp_index k = StepRes.cont r' t' s' i') :
    0 ≤ r' ∧ r' ≤ remaining := by
  simp only [stepEvent] at h
  split at h
  · exact absurd h (by simp)
  · split at h
    · exact absurd h (by simp)
    · split at h
      · injection h with h1 h2 h3 h4
        subst h1
        exact ⟨h0, le_refl _⟩
      · rename_i tgt heq
        split at h
        · rename_i hr
          split at h
          · split at h
            · exact absurd h (by simp)
            · injection h with h1 h2 h3 h4
              subst h1
              have hmem : tgt ∈ tp_targets := List.get?_mem heq
              obtain ⟨hp1, hp2⟩ := hpct tgt hmem
              constructor
              · have := mul_le_of_le_one_right (le_of_lt hr) hp2
                linarith
              · have : 0 ≤ remaining * tgt.close_pct :=
                  mul_nonneg (le_of_lt hr) (le_of_lt hp1)
                linarith
          · injection h with h1 h2 h3 h4
            subst h1
            exact ⟨h0, le_refl _⟩
        · injection h with h1 h2 h3 h4
          subst h1
          exact ⟨h0, le_refl _⟩

/-- Helper: falling through the whole bar loop never increases the
remaining fraction and keeps it nonnegative. -/
theorem simLoop_inr_bounds (side : Side) (entry_price : ℚ) (time_limit : ℤ)
    (tp_targets : List TpTarget)
    (hpct : ∀ tgt ∈ tp_targets, 0 < tgt.close_pct ∧ tgt.close_pct ≤ 1) :
    ∀ (bars : List Bar) (remaining total_pnl current_sl : ℚ) (tp_index k : ℕ)
      (r' t' : ℚ),
      0 ≤ remaining →
      simLoop side entry_price time_limit tp_targets bars
          remaining total_pnl current_sl tp_index k = Sum.inr (r', t') →
      0 ≤ r' ∧ r' ≤ remaining := by
  intro bars
  induction bars with
  | nil =>
    intro remaining total_pnl current_sl tp_index k r' t' h0 h
    simp only [simLoop] at h
    injection h with h1
    injection h1 with h2 h3
    subst h2
    exact ⟨h0, le_refl _⟩
  | cons row rest ih =>
    intro remaining total_pnl current_sl tp_index k r' t' h0 h
    simp only [simLoop] at h
    cases hstep : stepEvent side entry_price time_limit tp_targets row
        remaining total_pnl current_sl tp_index k with
    | closed out =>
      rw [hstep] at h
      exact absurd h (by simp)
    | cont r2 t2 s2 i2 =>
      rw [hstep] at h
      obtain ⟨hb1, hb2⟩ := stepEvent_cont_bounds side entry_price time_limit tp_targets
        row remaining total_pnl current_sl tp_index k r2 t2 s2 i2 h0 hpct hstep
      obtain ⟨hc1, hc2⟩ := ih r2 t2 s2 i2 (k + 1) r' t' hb1 h
      exact ⟨hc1, le_trans hc2 hb2⟩

/-- Helper: complete case analysis of a terminal step: it is the time-limit
force-close of the full remaining fraction, the stop close of the full
remaining fraction, or a take-profit close whose leftover is below the 0.01
full-close threshold. -/
theorem stepEvent_closed_cases (side : Side) (entry_price : ℚ) (time_limit : ℤ)
    (tp_targets : List TpTarget) (row : Bar)
    (remaining total_pnl current_sl : ℚ) (tp_index k : ℕ) (out : TradeOutcome)
    (h : stepEvent side entry_price time_limit tp_targets row
        remaining total_pnl current_sl tp_index k = StepRes.closed out) :
    (time_limit < row.timestamp ∧
      out = ⟨TradeResult.expired,
        total_pnl + pnlOf side entry_price row.close remaining,
        (total_pnl + pnlOf side entry_price row.close remaining)
          / POSITION_SIZE_USDT * 100,
        some row.timestamp, some row.close, k⟩) ∨
    (¬ time_limit < row.timestamp ∧ slHit side current_sl row = true ∧
      out = ⟨if total_pnl + (if |current_sl - entry_price| < 1 / 10000 then 0
              else pnlOf side entry_price current_sl remaining) < 0
            then TradeResult.loss else TradeResult.win,
          total_pnl + (if |current_sl - entry_price| < 1 / 10000 then 0
              else pnlOf side entry_price current_sl remaining),
          (total_pnl + (if |current_sl - entry_price| < 1 / 10000 then 0
              else pnlOf side entry_price current_sl remaining))
            / POSITION_SIZE_USDT * 100,
          some row.timestamp, some current_sl, k⟩) ∨
    (∃ tgt, tp_targets.get? tp_index = some tgt ∧ 0 < remaining ∧
      tpHit side tgt.price row = true ∧
      remaining - remaining * tgt.close_pct < 1 / 100 ∧
      out = ⟨TradeResult.win,
        total_pnl + pnlOf side entry_price tgt.price (remaining * tgt.close_pct),
        (total_pnl + pnlOf side entry_price tgt.price (remaining * tgt.close_pct))
          / POSITION_SIZE_USDT * 100,
        some row.timestamp, some tgt.price, k⟩) := by
  simp only [stepEvent] at h
  split at h
  · rename_i h1
    injection h with hout
    exact Or.inl ⟨h1, hout.symm⟩
  · rename_i h1
    split at h
    · rename_i h2
      injection h with hout
      exact Or.inr (Or.inl ⟨h1, h2, hout.symm⟩)
    · split at h
      · exact absurd h (by simp)
      · rename_i tgt heq
        split at h
        · rename_i hr
          split at h
          · rename_i htp
            split at h
            · rename_i hlt
              injection h with hout
              exact Or.inr (Or.inr ⟨tgt, heq, hr, htp, hlt, hout.symm⟩)
            · exact absurd h (by simp)
          · exact absurd h (by simp)
        · exact absurd h (by simp)

/-- Helper: along a four-tier-ladder run the remaining fraction is exactly
one half to the power of the tier index, and the index stays at most 3: a
continuing step preserves this invariant. -/
theorem ladder_cont_inv (e tp t1 t2 t3 t4 : ℚ) (side : Side) (time_limit : ℤ)
    (row : Bar) (remaining total_pnl current_sl : ℚ) (tp_index k : ℕ)
    (r' t' s' : ℚ) (i' : ℕ)
    (hinv : remaining = (1 / 2 : ℚ) ^ tp_index) (hle : tp_index ≤ 3)
    (h : stepEvent side e time_limit (mkTpTargets e tp (some [t1, t2, t3, t4])) row
        remaining total_pnl current_sl tp_index k = StepRes.cont r' t' s' i') :
    r' = (1 / 2 : ℚ) ^ i' ∧ i' ≤ 3 := by
  simp only [stepEvent] at h
  split at h
  · exact absurd h (by simp)
  · split at h
    · exact absurd h (by simp)
    · split at h
      · injection h with h1 h2 h3 h4
        subst h1
        subst h4
        exact ⟨hinv, hle⟩
      · rename_i tgt heq
        split at h
        · split at h
          · split at h
            · exact absurd h (by simp)
            · rename_i hlt
              injection h with h1 h2 h3 h4
              subst h1
              subst h4
              have hi : tp_index = 0 ∨ tp_index = 1 ∨ tp_index = 2 ∨ tp_index = 3 := by
                omega
              rcases hi with hi | hi | hi | hi <;> subst hi <;>
                simp only [mkTpTargets, List.get?] at heq <;>
                  rw [(Option.some_inj.mp heq).symm] at hlt ⊢
              · constructor
                · rw [hinv]; norm_num
                · omega
              · constructor
                · rw [hinv]; norm_num
                · omega
              · constructor
                · rw [hinv]; norm_num
                · omega
              · exfalso
                rw [hinv] at hlt
                norm_num at hlt
          · injection h with h1 h2 h3 h4
            subst h1
            subst h4
            exact ⟨hinv, hle⟩
        · injection h with h1 h2 h3 h4
          subst h1
          subst h4
          exact ⟨hinv, hle⟩

/-- Helper: every in-loop close of a four-tier-ladder run started at any
invariant state comes from a single step at an invariant state. -/
theorem ladder_run_closed (e tp t1 t2 t3 t4 : ℚ) (side : Side) (time_limit : ℤ) :
    ∀ (bars : List Bar) (remaining total_pnl current_sl : ℚ) (tp_index k : ℕ)
      (out : TradeOutcome),
      remaining = (1 / 2 : ℚ) ^ tp_index → tp_index ≤ 3 →
      simLoop side e time_limit (mkTpTargets e tp (some [t1, t2, t3, t4])) bars
          remaining total_pnl current_sl tp_index k = Sum.inl out →
      ∃ (row : Bar) (r0 t0 s0 : ℚ) (i0 k0 : ℕ),
        r0 = (1 / 2 : ℚ) ^ i0 ∧ i0 ≤ 3 ∧
        stepEvent side e time_limit (mkTpTargets e tp (some [t1, t2, t3, t4])) row
          r0 t0 s0 i0 k0 = StepRes.closed out := by
  intro bars
  induction bars with
  | nil =>
    intro remaining total_pnl current_sl tp_index k out hinv hle h
    exact absurd h (by simp [simLoop])
  | cons row rest ih =>
    intro remaining total_pnl current_sl tp_index k out hinv hle h
    simp only [simLoop] at h
    cases hstep : stepEvent side e time_limit (mkTpTargets e tp (some [t1, t2, t3, t4]))
        row remaining total_pnl current_sl tp_index k with
    | closed out2 =>
      rw [hstep] at h
      injection h with hout
      subst hout
      exact ⟨row, remaining, total_pnl, current_sl, tp_index, k, hinv, hle, hstep⟩
    | cont rr tt ss ii =>
      rw [hstep] at h
      obtain ⟨hinv2, hle2⟩ := ladder_cont_inv e tp t1 t2 t3 t4 side time_limit row
        remaining total_pnl current_sl tp_index k rr tt ss ii hinv hle hstep
      exact ih rr tt ss ii (k + 1) out hinv2 hle2 h

/-- Helper: at an invariant state of the four-tier ladder, a take-profit
terminal step leaves exactly zero: the sub-threshold guard can only fire at
the final tier, whose close fraction is 1. -/
theorem ladder_tp_zero (e tp t1 t2 t3 t4 : ℚ) (remaining : ℚ) (tp_index : ℕ)
    (tgt : TpTarget)
    (hinv : remaining = (1 / 2 : ℚ) ^ tp_index) (hle : tp_index ≤ 3)
    (heq : (mkTpTargets e tp (some [t1, t2, t3, t4])).get? tp_index = some tgt)
    (hlt : remaining - remaining * tgt.close_pct < 1 / 100) :
    remaining - remaining * tgt.close_pct = 0 := by
  have hi : tp_index = 0 ∨ tp_index = 1 ∨ tp_index = 2 ∨ tp_index = 3 := by omega
  rcases hi with hi | hi | hi | hi <;> subst hi <;>
    simp only [mkTpTargets, List.get?] at heq <;>
      rw [(Option.some_inj.mp heq).symm] at hlt ⊢ <;> rw [hinv] at hlt ⊢
  · exfalso; norm_num at hlt
  · exfalso; norm_num at hlt
  · exfalso; norm_num at hlt
  · norm_num

/-- Claim C10: the remaining position starts at exactly 1 and is
monotonically non-increasing: every ladder tier closes a fraction in
(0, 1] of what remains, a continuing event keeps the remaining fraction in
[0, 1], a whole run started at 1 ends (when no exit fires) with a remaining
fraction still in [0, 1]; and every terminal close is total: the time-limit
and stop closes realize the full remaining fraction, a take-profit terminal
close fires only when the leftover is below the 0.01 threshold, and on a
four-tier-ladder run started at full size that leftover is exactly 0. -/
theorem claim_C10 :
    (∀ (e tp : ℚ) (tp_levels : Option (List ℚ)) (tgt : TpTarget),
      tgt ∈ mkTpTargets e tp tp_levels → 0 < tgt.close_pct ∧ tgt.close_pct ≤ 1) ∧
    (∀ (side : Side) (e tp : ℚ) (tp_levels : Option (List ℚ)) (time_limit : ℤ)
      (row : Bar) (remaining total_pnl current_sl : ℚ) (tp_index k : ℕ)
      (r' t' s' : ℚ) (i' : ℕ),
      0 ≤ remaining →
      stepEvent side e time_limit (mkTpTargets e tp tp_levels) row
          remaining total_pnl current_sl tp_index k = StepRes.cont r' t' s' i' →
      0 ≤ r' ∧ r' ≤ remaining) ∧
    (∀ (side : Side) (e tp : ℚ) (tp_levels : Option (List ℚ)) (time_limit : ℤ)
      (bars : List Bar) (total_pnl current_sl : ℚ) (k : ℕ) (r' t' : ℚ),
      simLoop side e time_limit (mkTpTargets e tp tp_levels) bars
          1 total_pnl current_sl 0 k = Sum.inr (r', t') →
      0 ≤ r' ∧ r' ≤ 1) ∧
    (∀ (side : Side) (entry_price : ℚ) (time_limit : ℤ) (tp_targets : List TpTarget)
      (row : Bar) (remaining total_pnl current_sl : ℚ) (tp_index k : ℕ)
      (out : TradeOutcome),
      stepEvent side entry_price time_limit tp_targets row
          remaining total_pnl current_sl tp_index k = StepRes.closed out →
      (time_limit < row.timestamp ∧
        out = ⟨TradeResult.expired,
          total_pnl + pnlOf side entry_price row.close remaining,
          (total_pnl + pnlOf side entry_price row.close remaining)
            / POSITION_SIZE_USDT * 100,
          some row.timestamp, some row.close, k⟩) ∨
      (¬ time_limit < row.timestamp ∧ slHit side current_sl row = true ∧
        out = ⟨if total_pnl + (if |current_sl - entry_price| < 1 / 10000 then 0
                else pnlOf side entry_price current_sl remaining) < 0
              then TradeResult.loss else TradeResult.win,
            total_pnl + (if |current_sl - entry_price| < 1 / 10000 then 0
                else pnlOf side entry_price current_sl remaining),
            (total_pnl + (if |current_sl - entry_price| < 1 / 10000 then 0
                else pnlOf side entry_price current_sl remaining))
              / POSITION_SIZE_USDT * 100,
            some row.timestamp, some current_sl, k⟩) ∨
      (∃ tgt, tp_targets.get? tp_index = some tgt ∧ 0 < remaining ∧
        tpHit side tgt.price row = true ∧
        remaining - remaining * tgt.close_pct < 1 / 100 ∧
        out = ⟨TradeResult.win,
          total_pnl + pnlOf side entry_price tgt.price (remaining * tgt.close_pct),
          (total_pnl + pnlOf side entry_price tgt.price (remaining * tgt.close_pct))
            / POSITION_SIZE_USDT * 100,
          some row.timestamp, some tgt.price, k⟩)) ∧
    (∀ (e tp t1 t2 t3 t4 : ℚ) (side : Side) (time_limit : ℤ) (bars : List Bar)
      (total_pnl current_sl : ℚ) (k : ℕ) (out : TradeOutcome),
      simLoop side e time_limit (mkTpTargets e tp (some [t1, t2, t3, t4])) bars
          1 total_pnl current_sl 0 k = Sum.inl out →
      ∃ (row : Bar) (r0 t0 s0 : ℚ) (i0 k0 : ℕ),
        r0 = (1 / 2 : ℚ) ^ i0 ∧
        stepEvent side e time_limit (mkTpTargets e tp (some [t1, t2, t3, t4])) row
          r0 t0 s0 i0 k0 = StepRes.closed out ∧
        (∀ tgt, (mkTpTargets e tp (some [t1, t2, t3, t4])).get? i0 = some tgt →
          r0 - r0 * tgt.close_pct < 1 / 100 →
          r0 - r0 * tgt.close_pct = 0)) := by
  have hpct : ∀ (e tp : ℚ) (tp_levels : Option (List ℚ)) (tgt : TpTarget),
      tgt ∈ mkTpTargets e tp tp_levels → 0 < tgt.close_pct ∧ tgt.close_pct ≤ 1 := by
    intro e tp tp_levels tgt hmem
    unfold mkTpTargets at hmem
    split at hmem
    · simp only [List.mem_cons, List.mem_singleton, List.not_mem_nil, or_false] at hmem
      rcases hmem with h | h | h | h <;> subst h <;> norm_num
    · simp only [List.mem_singleton] at hmem
      subst hmem
      norm_num
  refine ⟨hpct, ?_, ?_, ?_, ?_⟩
  · intro side e tp tp_levels time_limit row remaining total_pnl current_sl tp_index k
      r' t' s' i' h0 h
    exact stepEvent_cont_bounds side e time_limit (mkTpTargets e tp tp_levels) row
      remaining total_pnl current_sl tp_index k r' t' s' i' h0
      (hpct e tp tp_levels) h
  · intro side e tp tp_levels time_limit bars total_pnl current_sl k r' t' h
    exact simLoop_inr_bounds side e time_limit (mkTpTargets e tp tp_levels)
      (hpct e tp tp_levels) bars 1 total_pnl current_sl 0 k r' t' (by norm_num) h
  · intro side entry_price time_limit tp_targets row remaining total_pnl current_sl
      tp_index k out h
    exact stepEvent_closed_cases side entry_price time_limit tp_targets row
      remaining total_pnl current_sl tp_index k out h
  · intro e tp t1 t2 t3 t4 side time_limit bars total_pnl current_sl k out h
    obtain ⟨row, r0, t0, s0, i0, k0, hinv, hle, hstep⟩ :=
      ladder_run_closed e tp t1 t2 t3 t4 side time_limit bars 1 total_pnl current_sl
        0 k out (by norm_num) (by norm_num) h
    refine ⟨row, r0, t0, s0, i0, k0, hinv, hstep, ?_⟩
    intro tgt heq hlt
    exact ladder_tp_zero e tp t1 t2 t3 t4 r0 i0 tgt hinv hle heq hlt

/-- Witness for claim C10: a tier-1 close keeps the remaining fraction in
bounds, an eventless loop leaves it at 1, and the closing step of a
full-ladder run satisfies the invariant. -/
theorem claim_C10_witness :
    ((0 : ℚ) ≤ 1 / 2 ∧ (1 / 2 : ℚ) ≤ 1) ∧
    ((0 : ℚ) ≤ 1 ∧ (1 : ℚ) ≤ 1) ∧
    (0 < (⟨102, 1 / 2, some 100⟩ : TpTarget).close_pct ∧
      (⟨102, 1 / 2, some 100⟩ : TpTarget).close_pct ≤ 1) := by
  refine ⟨?_, ?_, ?_⟩
  · exact claim_C10.2.1 Side.long 100 102 (some [102, 104, 106, 108]) 240
      ⟨1, 103, 101, 102⟩ 1 0 95 0 2 (1 / 2) 10 100 1 (by norm_num)
      (by norm_num [stepEvent, mkTpTargets, slHit, tpHit, pnlOf,
        POSITION_SIZE_USDT, LEVERAGE])
  · exact claim_C10.2.2.1 Side.long 100 102 (some [102, 104, 106, 108]) 240
      [⟨1, 100, 96, 98⟩] 0 95 2 1 0
      (by norm_num [simLoop, stepEvent, mkTpTargets, slHit, tpHit])
  · exact claim_C10.1 100 102 (some [102, 104, 106, 108]) ⟨102, 1 / 2, some 100⟩
      (by norm_num [mkTpTargets])

end Telegrambot
